import Mathlib

/-!
Shallow embedding of evince's `shell/ev-job-queue.c` (the background job
scheduler): the eight synchronous FIFO queues drained by the render thread,
the two asynchronous render FIFOs drained cooperatively on the main thread,
and the public add/update/remove operations.

GQueue values are modelled as Lean lists (head of the list = head of the
queue, push_tail appends on the right).  Jobs are modelled by their identity
plus the two classification attributes the scheduler inspects (the GObject
type tag, here `kind`, and the `async` field).  Reference counting is
dropped; the ghost fields `running` and `trace` record which async jobs have
been dispatched but not yet completed, so that the serialization discipline
of the async dispatcher can be stated.  `g_assert_not_reached` is modelled
by returning `none` from the enclosing operation.
-/

/-- The six job kinds the scheduler distinguishes via runtime type checks
(`EV_IS_JOB_RENDER`, `EV_IS_JOB_THUMBNAIL`, ...). -/
inductive EvJobKind where
  | Render
  | Thumbnail
  | Links
  | Load
  | Fonts
  | Print
deriving DecidableEq, Repr

/-- EvJobPriority: the two priorities `EV_JOB_PRIORITY_HIGH` and
`EV_JOB_PRIORITY_LOW`. -/
inductive EvJobPriority where
  | high
  | low
deriving DecidableEq, Repr

/-- A job, as seen by the scheduler: an identity (pointer in C), the kind
tag, and the `async` flag of the EvJob struct. -/
structure EvJob where
  id : Nat
  kind : EvJobKind
  async : Bool
deriving DecidableEq, Repr

/-- Names for the ten GQueue globals of ev-job-queue.c. -/
inductive QueueId where
  | linksQ
  | rqHigh
  | rqLow
  | tqHigh
  | tqLow
  | loadQ
  | fontsQ
  | printQ
  | arqHigh
  | arqLow
deriving DecidableEq, Repr

/-- Events recorded in the ghost trace of the async dispatcher: `start j`
when `handle_job` dispatches async job `j` (connects `job_finished_cb` and
calls the run function), `finish j` when the finished signal fires and
`job_finished_cb` runs for `j`. -/
inductive AsyncEvent where
  | start (j : EvJob)
  | finish (j : EvJob)
deriving DecidableEq, Repr

/-- The global state of ev-job-queue.c: the eight synchronous queues, the
two async render queues, and the `async_rendering` flag; plus the ghost
fields `running` (async jobs dispatched and not yet finished) and `trace`
(the sequence of async start and finish events, oldest first). -/
structure EvState where
  linksQueue : List EvJob
  renderQueueHigh : List EvJob
  renderQueueLow : List EvJob
  thumbnailQueueHigh : List EvJob
  thumbnailQueueLow : List EvJob
  loadQueue : List EvJob
  fontsQueue : List EvJob
  printQueue : List EvJob
  asyncRenderQueueHigh : List EvJob
  asyncRenderQueueLow : List EvJob
  asyncRendering : Bool
  running : List EvJob
  trace : List AsyncEvent
deriving DecidableEq, Repr

/-- Read the queue named by `q`. -/
def getQueue (s : EvState) (q : QueueId) : List EvJob :=
  match q with
  | .linksQ => s.linksQueue
  | .rqHigh => s.renderQueueHigh
  | .rqLow => s.renderQueueLow
  | .tqHigh => s.thumbnailQueueHigh
  | .tqLow => s.thumbnailQueueLow
  | .loadQ => s.loadQueue
  | .fontsQ => s.fontsQueue
  | .printQ => s.printQueue
  | .arqHigh => s.asyncRenderQueueHigh
  | .arqLow => s.asyncRenderQueueLow

/-- Replace the queue named by `q`. -/
def setQueue (s : EvState) (q : QueueId) (l : List EvJob) : EvState :=
  match q with
  | .linksQ => { s with linksQueue := l }
  | .rqHigh => { s with renderQueueHigh := l }
  | .rqLow => { s with renderQueueLow := l }
  | .tqHigh => { s with thumbnailQueueHigh := l }
  | .tqLow => { s with thumbnailQueueLow := l }
  | .loadQ => { s with loadQueue := l }
  | .fontsQ => { s with fontsQueue := l }
  | .printQ => { s with printQueue := l }
  | .arqHigh => { s with asyncRenderQueueHigh := l }
  | .arqLow => { s with asyncRenderQueueLow := l }

/-- The state right after `ev_job_queue_init`: all ten queues empty,
`async_rendering = FALSE`, nothing running, empty trace. -/
def initState : EvState :=
  { linksQueue := [], renderQueueHigh := [], renderQueueLow := []
  , thumbnailQueueHigh := [], thumbnailQueueLow := []
  , loadQueue := [], fontsQueue := [], printQueue := []
  , asyncRenderQueueHigh := [], asyncRenderQueueLow := []
  , asyncRendering := false, running := [], trace := [] }

/-- remove_job_from_queue_locked: `g_queue_find` locates the first
occurrence of `job` (pointer identity); if found the link is deleted and
TRUE is returned, otherwise FALSE.  On lists: erase the first occurrence. -/
def removeJobFromQueueLocked (l : List EvJob) (j : EvJob) : Bool × List EvJob :=
  if j ∈ l then (true, l.erase j) else (false, l)

/-- remove_job_from_async_queue simply forwards to
remove_job_from_queue_locked. -/
def removeJobFromAsyncQueue (l : List EvJob) (j : EvJob) : Bool × List EvJob :=
  removeJobFromQueueLocked l j

/-- add_job_to_async_queue: ref the job and `g_queue_push_tail`. -/
def addJobToAsyncQueue (s : EvState) (q : QueueId) (j : EvJob) : EvState :=
  setQueue s q (getQueue s q ++ [j])

/-- add_job_to_queue_locked: ref the job, `g_queue_push_tail`, and
`g_cond_broadcast (render_cond)` (the wakeup itself is modelled in the
worker-iteration environment, not in the state). -/
def addJobToQueueLocked (s : EvState) (q : QueueId) (j : EvJob) : EvState :=
  setQueue s q (getQueue s q ++ [j])

/-- handle_job: for an async job, set `async_rendering = TRUE` and, if it is
a render job, connect `job_finished_cb` to its finished signal (ghost:
append it to `running` and record a `start` event); for an async non-render
job `g_assert_not_reached` fires (modelled as `none`).  Then the
kind-specific run function is invoked (opaque, no scheduler-state effect)
and, for sync jobs, the finished notification is scheduled on an idle
(also opaque here). -/
def handleJob (s : EvState) (j : EvJob) : Option EvState :=
  if j.async then
    if j.kind = .Render then
      some { s with asyncRendering := true
                  , running := s.running ++ [j]
                  , trace := s.trace ++ [AsyncEvent.start j] }
    else
      none
  else
    some s

/-- ev_job_queue_run_next: pop the head of the async high queue, falling
back to the async low queue; if a job was obtained, handle it.  Note that
the function does NOT consult `async_rendering`. -/
def evJobQueueRunNext (s : EvState) : Option EvState :=
  match s.asyncRenderQueueHigh with
  | j :: rest => handleJob { s with asyncRenderQueueHigh := rest } j
  | [] =>
    match s.asyncRenderQueueLow with
    | j :: rest => handleJob { s with asyncRenderQueueLow := rest } j
    | [] => some s

/-- job_finished_cb: unref the job (ghost: drop it from `running` and record
the `finish` event), clear `async_rendering`, and call
ev_job_queue_run_next. -/
def jobFinishedCb (j : EvJob) (s : EvState) : Option EvState :=
  evJobQueueRunNext
    { s with asyncRendering := false
           , running := s.running.erase j
           , trace := s.trace ++ [AsyncEvent.finish j] }

/-- search_for_jobs_unlocked: pop the head of the first non-empty queue in
the fixed order render-high, thumbnail-high, render-low, links, load,
thumbnail-low, fonts, print; NULL when all eight are empty. -/
def searchForJobsUnlocked (s : EvState) : Option EvJob × EvState :=
  match s.renderQueueHigh with
  | j :: rest => (some j, { s with renderQueueHigh := rest })
  | [] =>
  match s.thumbnailQueueHigh with
  | j :: rest => (some j, { s with thumbnailQueueHigh := rest })
  | [] =>
  match s.renderQueueLow with
  | j :: rest => (some j, { s with renderQueueLow := rest })
  | [] =>
  match s.linksQueue with
  | j :: rest => (some j, { s with linksQueue := rest })
  | [] =>
  match s.loadQueue with
  | j :: rest => (some j, { s with loadQueue := rest })
  | [] =>
  match s.thumbnailQueueLow with
  | j :: rest => (some j, { s with thumbnailQueueLow := rest })
  | [] =>
  match s.fontsQueue with
  | j :: rest => (some j, { s with fontsQueue := rest })
  | [] =>
  match s.printQueue with
  | j :: rest => (some j, { s with printQueue := rest })
  | [] => (none, s)

/-- no_jobs_available_unlocked: TRUE iff all eight synchronous queues are
empty (conjunction written in the order of the C source). -/
def noJobsAvailableUnlocked (s : EvState) : Bool :=
  s.renderQueueHigh.isEmpty
    && s.renderQueueLow.isEmpty
    && s.linksQueue.isEmpty
    && s.loadQueue.isEmpty
    && s.thumbnailQueueHigh.isEmpty
    && s.thumbnailQueueLow.isEmpty
    && s.fontsQueue.isEmpty
    && s.printQueue.isEmpty

/-- One iteration of the ev_render_thread main loop.  `wakes` is the
environment: the sequence of queue states the thread would observe at
successive returns of `g_cond_wait` (a wake with an unchanged empty state is
a spurious wakeup).  The loop body locks, checks `no_jobs_available_unlocked`
ONCE (an `if`, not a `while`); when empty it waits a single time (consuming
one element of `wakes`; `none` means the wait never returns within the
observation), then unconditionally calls search_for_jobs_unlocked, unlocks,
and handles the job if one was obtained.  The result records the popped job
(if any), the state after the pop, and how many waits were performed. -/
def evRenderThreadIter (s : EvState) (wakes : List EvState) :
    Option (Option EvJob × EvState × Nat) :=
  if noJobsAvailableUnlocked s then
    match wakes with
    | [] => none
    | w :: _ =>
      let r := searchForJobsUnlocked w
      some (r.1, r.2, 1)
  else
    let r := searchForJobsUnlocked s
    some (r.1, r.2, 0)

/-- Modelled from the spec: the worker-loop iteration as §4.2 of the spec
describes it — "While `QueueSet.isEmpty()`, wait on the wake condition",
re-checking emptiness after every wake and popping only once some queue is
non-empty.  It consumes wake states until a non-empty one arrives (counting
the waits) and only then pops. -/
def specWorkerIter (s : EvState) (wakes : List EvState) :
    Option (Option EvJob × EvState × Nat) :=
  if noJobsAvailableUnlocked s then
    match wakes with
    | [] => none
    | w :: ws =>
      match specWorkerIter w ws with
      | some (j, s2, n) => some (j, s2, n + 1)
      | none => none
  else
    let r := searchForJobsUnlocked s
    some (r.1, r.2, 0)

/-- find_queue: classify a job by `async`, kind tag, and priority and return
the GQueue it belongs to; `g_assert_not_reached` (here `none`) for an async
job that is not a render job. -/
def findQueue (j : EvJob) (p : EvJobPriority) : Option QueueId :=
  if j.async then
    if j.kind = .Render then
      if p = .high then some .arqHigh else some .arqLow
    else
      none
  else
    match j.kind with
    | .Render => if p = .high then some .rqHigh else some .rqLow
    | .Thumbnail => if p = .high then some .tqHigh else some .tqLow
    | .Load => some .loadQ
    | .Links => some .linksQ
    | .Fonts => some .fontsQ
    | .Print => some .printQ

/-- ev_job_queue_add_job: find the queue; for a sync job append under the
lock (and broadcast); for an async job append to the async queue and, if
`async_rendering` is not set, call ev_job_queue_run_next. -/
def evJobQueueAddJob (j : EvJob) (p : EvJobPriority) (s : EvState) :
    Option EvState :=
  match findQueue j p with
  | none => none
  | some q =>
    if j.async = false then
      some (addJobToQueueLocked s q j)
    else
      let s1 := addJobToAsyncQueue s q j
      if s1.asyncRendering = false then evJobQueueRunNext s1 else some s1

/-- move_job_async: remove the job from `oldQ`; when found, append it to
`newQ` and report TRUE, otherwise report FALSE. -/
def moveJobAsync (j : EvJob) (oldQ newQ : QueueId) (s : EvState) :
    Bool × EvState :=
  let r := removeJobFromQueueLocked (getQueue s oldQ) j
  if r.1 then
    (true, addJobToAsyncQueue (setQueue s oldQ r.2) newQ j)
  else
    (false, setQueue s oldQ r.2)

/-- move_job: under the lock, remove the job from `oldQ`; when found, append
it to `newQ` (with broadcast) and report TRUE, otherwise report FALSE. -/
def moveJob (j : EvJob) (oldQ newQ : QueueId) (s : EvState) :
    Bool × EvState :=
  let r := removeJobFromQueueLocked (getQueue s oldQ) j
  if r.1 then
    (true, addJobToQueueLocked (setQueue s oldQ r.2) newQ j)
  else
    (false, setQueue s oldQ r.2)

/-- ev_job_queue_update_job: async render jobs move between the two async
queues; sync thumbnail and render jobs move between their high and low
queues (from the opposite queue into the queue of the requested priority);
every other kind hits `g_assert_not_reached` (modelled as `none`). -/
def evJobQueueUpdateJob (j : EvJob) (p : EvJobPriority) (s : EvState) :
    Option (Bool × EvState) :=
  if j.async then
    if j.kind = .Render then
      match p with
      | .low => some (moveJobAsync j .arqHigh .arqLow s)
      | .high => some (moveJobAsync j .arqLow .arqHigh s)
    else
      none
  else
    match j.kind with
    | .Thumbnail =>
      match p with
      | .low => some (moveJob j .tqHigh .tqLow s)
      | .high => some (moveJob j .tqLow .tqHigh s)
    | .Render =>
      match p with
      | .low => some (moveJob j .rqHigh .rqLow s)
      | .high => some (moveJob j .rqLow .rqHigh s)
    | _ => none

/-- ev_job_queue_remove_job: for an async render job scan the async high
queue and then (only if not yet found, by short-circuit of `||`) the async
low queue; for sync jobs, under the lock, scan the queue(s) of the job's
kind, high before low; async non-render jobs hit `g_assert_not_reached`
(modelled as `none`). -/
def evJobQueueRemoveJob (j : EvJob) (s : EvState) : Option (Bool × EvState) :=
  if j.async then
    if j.kind = .Render then
      let r1 := removeJobFromAsyncQueue s.asyncRenderQueueHigh j
      let s1 := { s with asyncRenderQueueHigh := r1.2 }
      if r1.1 then some (true, s1)
      else
        let r2 := removeJobFromAsyncQueue s1.asyncRenderQueueLow j
        some (r2.1, { s1 with asyncRenderQueueLow := r2.2 })
    else
      none
  else
    match j.kind with
    | .Thumbnail =>
      let r1 := removeJobFromQueueLocked s.thumbnailQueueHigh j
      let s1 := { s with thumbnailQueueHigh := r1.2 }
      if r1.1 then some (true, s1)
      else
        let r2 := removeJobFromQueueLocked s1.thumbnailQueueLow j
        some (r2.1, { s1 with thumbnailQueueLow := r2.2 })
    | .Render =>
      let r1 := removeJobFromQueueLocked s.renderQueueHigh j
      let s1 := { s with renderQueueHigh := r1.2 }
      if r1.1 then some (true, s1)
      else
        let r2 := removeJobFromQueueLocked s1.renderQueueLow j
        some (r2.1, { s1 with renderQueueLow := r2.2 })
    | .Links =>
      let r := removeJobFromQueueLocked s.linksQueue j
      some (r.1, { s with linksQueue := r.2 })
    | .Load =>
      let r := removeJobFromQueueLocked s.loadQueue j
      some (r.1, { s with loadQueue := r.2 })
    | .Fonts =>
      let r := removeJobFromQueueLocked s.fontsQueue j
      some (r.1, { s with fontsQueue := r.2 })
    | .Print =>
      let r := removeJobFromQueueLocked s.printQueue j
      some (r.1, { s with printQueue := r.2 })

/-- The fixed static scan order of the eight synchronous queues, highest
priority first, as implemented by search_for_jobs_unlocked. -/
def syncScanOrder : List QueueId :=
  [.rqHigh, .tqHigh, .rqLow, .linksQ, .loadQ, .tqLow, .fontsQ, .printQ]

/-- Rank of a queue in the static scan order (lower rank = scanned first);
the two async queues are outside the synchronous scan and rank last. -/
def queueRank (q : QueueId) : Nat :=
  match q with
  | .rqHigh => 0
  | .tqHigh => 1
  | .rqLow => 2
  | .linksQ => 3
  | .loadQ => 4
  | .tqLow => 5
  | .fontsQ => 6
  | .printQ => 7
  | .arqHigh => 8
  | .arqLow => 9

/-- The first non-empty synchronous queue in scan order, if any. -/
def firstNonEmptyQueue (s : EvState) : Option QueueId :=
  syncScanOrder.find? (fun q => !(getQueue s q).isEmpty)

/-- The synchronous queues a job's kind and mode can map to, scanned in the
order ev_job_queue_remove_job uses. -/
def candidateQueues (j : EvJob) : List QueueId :=
  if j.async then
    if j.kind = .Render then [.arqHigh, .arqLow] else []
  else
    match j.kind with
    | .Render => [.rqHigh, .rqLow]
    | .Thumbnail => [.tqHigh, .tqLow]
    | .Links => [.linksQ]
    | .Load => [.loadQ]
    | .Fonts => [.fontsQ]
    | .Print => [.printQ]

/-- Total number of occurrences of `j` across all ten queues. -/
def totalCount (j : EvJob) (s : EvState) : Nat :=
  s.linksQueue.count j + s.renderQueueHigh.count j + s.renderQueueLow.count j
    + s.thumbnailQueueHigh.count j + s.thumbnailQueueLow.count j
    + s.loadQueue.count j + s.fontsQueue.count j + s.printQueue.count j
    + s.asyncRenderQueueHigh.count j + s.asyncRenderQueueLow.count j

/-- Concrete jobs used by the witness and counterexample theorems. -/
def jobRenderSync : EvJob := { id := 1, kind := .Render, async := false }

def jobThumbSync : EvJob := { id := 2, kind := .Thumbnail, async := false }

def jobLoadSync : EvJob := { id := 3, kind := .Load, async := false }

def jobLinksSync : EvJob := { id := 4, kind := .Links, async := false }

def jobPrintSync : EvJob := { id := 5, kind := .Print, async := false }

def jobRenderAsync : EvJob := { id := 6, kind := .Render, async := true }

def jobThumbAsync : EvJob := { id := 7, kind := .Thumbnail, async := true }

/-- Iterated worker dequeues: pop `n` jobs via search_for_jobs_unlocked,
collecting them in order. -/
def popJobs : Nat → EvState → List EvJob × EvState
  | 0, s => ([], s)
  | n + 1, s =>
    match searchForJobsUnlocked s with
    | (some j, s1) =>
      let r := popJobs n s1
      (j :: r.1, r.2)
    | (none, s1) => ([], s1)

/-- The queue ev_job_queue_update_job removes from when asked to move a job
TO priority `p`: the queue of the opposite priority for the job's kind
(none for the kinds whose update asserts). -/
def moveSourceQueue (j : EvJob) (p : EvJobPriority) : Option QueueId :=
  if j.async then
    if j.kind = .Render then
      match p with
      | .low => some .arqHigh
      | .high => some .arqLow
    else none
  else
    match j.kind with
    | .Thumbnail =>
      match p with
      | .low => some .tqHigh
      | .high => some .tqLow
    | .Render =>
      match p with
      | .low => some .rqHigh
      | .high => some .rqLow
    | _ => none

/-- An async render job with identity `i` (the only job shape the async
dispatcher accepts). -/
def asyncRenderJob (i : Nat) : EvJob :=
  { id := i, kind := .Render, async := true }

/-- External events driving the async dispatcher: a producer submits an
async render job with a priority (ev_job_queue_add_job), or the backend
delivers the finished signal of a dispatched job (job_finished_cb). -/
inductive AsyncOp where
  | submit (i : Nat) (p : EvJobPriority)
  | complete (i : Nat)

/-- One step of the async domain.  A `complete` only fires for a job whose
finished signal was connected, i.e. one that was dispatched and has not yet
finished.  `Option.getD` keeps the function total; the `none` (assertion)
branches are unreachable because every submitted job is an async render
job. -/
def asyncStep (s : EvState) (op : AsyncOp) : EvState :=
  match op with
  | .submit i p => (evJobQueueAddJob (asyncRenderJob i) p s).getD s
  | .complete i =>
    if asyncRenderJob i ∈ s.running then
      (jobFinishedCb (asyncRenderJob i) s).getD s
    else s

/-- Run a sequence of async-domain operations from the initial state. -/
def asyncRun (ops : List AsyncOp) : EvState :=
  List.foldl asyncStep initState ops

/-- Serialized traces: the trace alternates start and finish events, each
start happening only while nothing is in flight and each finish finishing
exactly the job in flight; the second index is the list of jobs currently
in flight. -/
inductive Serial : List AsyncEvent → List EvJob → Prop where
  | nil : Serial [] []
  | start (j : EvJob) {tr : List AsyncEvent} (h : Serial tr []) :
      Serial (tr ++ [AsyncEvent.start j]) [j]
  | fin (j : EvJob) {tr : List AsyncEvent} (h : Serial tr [j]) :
      Serial (tr ++ [AsyncEvent.finish j]) []

/-- Invariant of the async domain: the busy flag is set exactly while a job
is in flight, the trace is serialized with the in-flight list, and both
async queues hold only async render jobs. -/
def AsyncInv (s : EvState) : Prop :=
  s.asyncRendering = !s.running.isEmpty
    ∧ Serial s.trace s.running
    ∧ (∀ j ∈ s.asyncRenderQueueHigh, j.async = true ∧ j.kind = EvJobKind.Render)
    ∧ (∀ j ∈ s.asyncRenderQueueLow, j.async = true ∧ j.kind = EvJobKind.Render)

lemma getQueue_setQueue (s : EvState) (q r : QueueId) (l : List EvJob) :
    getQueue (setQueue s q l) r = if r = q then l else getQueue s r := by
  cases q <;> cases r <;> simp [getQueue, setQueue]

lemma setQueue_getQueue (s : EvState) (q : QueueId) :
    setQueue s q (getQueue s q) = s := by
  cases q <;> rfl

lemma asyncRendering_setQueue (s : EvState) (q : QueueId) (l : List EvJob) :
    (setQueue s q l).asyncRendering = s.asyncRendering := by
  cases q <;> rfl

lemma running_setQueue (s : EvState) (q : QueueId) (l : List EvJob) :
    (setQueue s q l).running = s.running := by
  cases q <;> rfl

lemma trace_setQueue (s : EvState) (q : QueueId) (l : List EvJob) :
    (setQueue s q l).trace = s.trace := by
  cases q <;> rfl

/-- Characterization of search_for_jobs_unlocked: either every synchronous
queue is empty and it returns NULL leaving the state unchanged, or it pops
exactly the head of the first non-empty queue in scan order. -/
lemma search_spec (s : EvState) :
    (noJobsAvailableUnlocked s = true ∧ searchForJobsUnlocked s = (none, s)) ∨
    (∃ q j rest, q ∈ syncScanOrder ∧ getQueue s q = j :: rest ∧
      (∀ r ∈ syncScanOrder, queueRank r < queueRank q → getQueue s r = []) ∧
      searchForJobsUnlocked s = (some j, setQueue s q rest)) := by
  rcases h0 : s.renderQueueHigh with _ | ⟨j, rest⟩
  case cons =>
    refine Or.inr ⟨.rqHigh, j, rest, by simp [syncScanOrder], h0, ?_, ?_⟩
    · intro r hr hrank
      cases r <;> simp [queueRank] at hrank
    · simp [searchForJobsUnlocked, h0, setQueue]
  case nil =>
  rcases h1 : s.thumbnailQueueHigh with _ | ⟨j, rest⟩
  case cons =>
    refine Or.inr ⟨.tqHigh, j, rest, by simp [syncScanOrder], h1, ?_, ?_⟩
    · intro r hr hrank
      cases r <;> simp_all [queueRank, getQueue]
    · simp [searchForJobsUnlocked, h0, h1, setQueue]
  case nil =>
  rcases h2 : s.renderQueueLow with _ | ⟨j, rest⟩
  case cons =>
    refine Or.inr ⟨.rqLow, j, rest, by simp [syncScanOrder], h2, ?_, ?_⟩
    · intro r hr hrank
      cases r <;> simp [queueRank, getQueue] at hrank ⊢ <;> assumption
    · simp [searchForJobsUnlocked, h0, h1, h2, setQueue]
  case nil =>
  rcases h3 : s.linksQueue with _ | ⟨j, rest⟩
  case cons =>
    refine Or.inr ⟨.linksQ, j, rest, by simp [syncScanOrder], h3, ?_, ?_⟩
    · intro r hr hrank
      cases r <;> simp [queueRank, getQueue] at hrank ⊢ <;> assumption
    · simp [searchForJobsUnlocked, h0, h1, h2, h3, setQueue]
  case nil =>
  rcases h4 : s.loadQueue with _ | ⟨j, rest⟩
  case cons =>
    refine Or.inr ⟨.loadQ, j, rest, by simp [syncScanOrder], h4, ?_, ?_⟩
    · intro r hr hrank
      cases r <;> simp [queueRank, getQueue] at hrank ⊢ <;> assumption
    · simp [searchForJobsUnlocked, h0, h1, h2, h3, h4, setQueue]
  case nil =>
  rcases h5 : s.thumbnailQueueLow with _ | ⟨j, rest⟩
  case cons =>
    refine Or.inr ⟨.tqLow, j, rest, by simp [syncScanOrder], h5, ?_, ?_⟩
    · intro r hr hrank
      cases r <;> simp [queueRank, getQueue] at hrank ⊢ <;> assumption
    · simp [searchForJobsUnlocked, h0, h1, h2, h3, h4, h5, setQueue]
  case nil =>
  rcases h6 : s.fontsQueue with _ | ⟨j, rest⟩
  case cons =>
    refine Or.inr ⟨.fontsQ, j, rest, by simp [syncScanOrder], h6, ?_, ?_⟩
    · intro r hr hrank
      cases r <;> simp [queueRank, getQueue] at hrank ⊢ <;> assumption
    · simp [searchForJobsUnlocked, h0, h1, h2, h3, h4, h5, h6, setQueue]
  case nil =>
  rcases h7 : s.printQueue with _ | ⟨j, rest⟩
  case cons =>
    refine Or.inr ⟨.printQ, j, rest, by simp [syncScanOrder], h7, ?_, ?_⟩
    · intro r hr hrank
      cases r <;> simp [queueRank, getQueue] at hrank ⊢ <;> assumption
    · simp [searchForJobsUnlocked, h0, h1, h2, h3, h4, h5, h6, h7, setQueue]
  case nil =>
  exact Or.inl ⟨by simp [noJobsAvailableUnlocked, h0, h1, h2, h3, h4, h5, h6, h7],
    by simp [searchForJobsUnlocked, h0, h1, h2, h3, h4, h5, h6, h7]⟩

lemma noJobs_iff (s : EvState) :
    noJobsAvailableUnlocked s = true ↔ ∀ q ∈ syncScanOrder, getQueue s q = [] := by
  constructor
  · intro h q hq
    simp [noJobsAvailableUnlocked, List.isEmpty_iff] at h
    cases q <;> simp_all [getQueue, syncScanOrder]
  · intro h
    have a0 := h .rqHigh (by decide)
    have a1 := h .rqLow (by decide)
    have a2 := h .linksQ (by decide)
    have a3 := h .loadQ (by decide)
    have a4 := h .tqHigh (by decide)
    have a5 := h .tqLow (by decide)
    have a6 := h .fontsQ (by decide)
    have a7 := h .printQ (by decide)
    simp [getQueue] at a0 a1 a2 a3 a4 a5 a6 a7
    simp [noJobsAvailableUnlocked, a0, a1, a2, a3, a4, a5, a6, a7]

lemma firstNonEmpty_eq (s : EvState) (q : QueueId) (hmem : q ∈ syncScanOrder)
    (hq : getQueue s q ≠ [])
    (hbefore : ∀ r ∈ syncScanOrder, queueRank r < queueRank q → getQueue s r = []) :
    firstNonEmptyQueue s = some q := by
  cases q
  case rqHigh =>
    simp [getQueue] at hq
    rcases hcons : s.renderQueueHigh with _ | ⟨a, t⟩
    · exact absurd hcons hq
    · simp [firstNonEmptyQueue, syncScanOrder, List.find?, getQueue, hcons]
  case tqHigh =>
    have e0 := hbefore .rqHigh (by decide) (by decide)
    simp [getQueue] at e0 hq
    rcases hcons : s.thumbnailQueueHigh with _ | ⟨a, t⟩
    · exact absurd hcons hq
    · simp [firstNonEmptyQueue, syncScanOrder, List.find?, getQueue, e0, hcons]
  case rqLow =>
    have e0 := hbefore .rqHigh (by decide) (by decide)
    have e1 := hbefore .tqHigh (by decide) (by decide)
    simp [getQueue] at e0 e1 hq
    rcases hcons : s.renderQueueLow with _ | ⟨a, t⟩
    · exact absurd hcons hq
    · simp [firstNonEmptyQueue, syncScanOrder, List.find?, getQueue, e0, e1, hcons]
  case linksQ =>
    have e0 := hbefore .rqHigh (by decide) (by decide)
    have e1 := hbefore .tqHigh (by decide) (by decide)
    have e2 := hbefore .rqLow (by decide) (by decide)
    simp [getQueue] at e0 e1 e2 hq
    rcases hcons : s.linksQueue with _ | ⟨a, t⟩
    · exact absurd hcons hq
    · simp [firstNonEmptyQueue, syncScanOrder, List.find?, getQueue, e0, e1, e2,
        hcons]
  case loadQ =>
    have e0 := hbefore .rqHigh (by decide) (by decide)
    have e1 := hbefore .tqHigh (by decide) (by decide)
    have e2 := hbefore .rqLow (by decide) (by decide)
    have e3 := hbefore .linksQ (by decide) (by decide)
    simp [getQueue] at e0 e1 e2 e3 hq
    rcases hcons : s.loadQueue with _ | ⟨a, t⟩
    · exact absurd hcons hq
    · simp [firstNonEmptyQueue, syncScanOrder, List.find?, getQueue, e0, e1, e2,
        e3, hcons]
  case tqLow =>
    have e0 := hbefore .rqHigh (by decide) (by decide)
    have e1 := hbefore .tqHigh (by decide) (by decide)
    have e2 := hbefore .rqLow (by decide) (by decide)
    have e3 := hbefore .linksQ (by decide) (by decide)
    have e4 := hbefore .loadQ (by decide) (by decide)
    simp [getQueue] at e0 e1 e2 e3 e4 hq
    rcases hcons : s.thumbnailQueueLow with _ | ⟨a, t⟩
    · exact absurd hcons hq
    · simp [firstNonEmptyQueue, syncScanOrder, List.find?, getQueue, e0, e1, e2,
        e3, e4, hcons]
  case fontsQ =>
    have e0 := hbefore .rqHigh (by decide) (by decide)
    have e1 := hbefore .tqHigh (by decide) (by decide)
    have e2 := hbefore .rqLow (by decide) (by decide)
    have e3 := hbefore .linksQ (by decide) (by decide)
    have e4 := hbefore .loadQ (by decide) (by decide)
    have e5 := hbefore .tqLow (by decide) (by decide)
    simp [getQueue] at e0 e1 e2 e3 e4 e5 hq
    rcases hcons : s.fontsQueue with _ | ⟨a, t⟩
    · exact absurd hcons hq
    · simp [firstNonEmptyQueue, syncScanOrder, List.find?, getQueue, e0, e1, e2,
        e3, e4, e5, hcons]
  case printQ =>
    have e0 := hbefore .rqHigh (by decide) (by decide)
    have e1 := hbefore .tqHigh (by decide) (by decide)
    have e2 := hbefore .rqLow (by decide) (by decide)
    have e3 := hbefore .linksQ (by decide) (by decide)
    have e4 := hbefore .loadQ (by decide) (by decide)
    have e5 := hbefore .tqLow (by decide) (by decide)
    have e6 := hbefore .fontsQ (by decide) (by decide)
    simp [getQueue] at e0 e1 e2 e3 e4 e5 e6 hq
    rcases hcons : s.printQueue with _ | ⟨a, t⟩
    · exact absurd hcons hq
    · simp [firstNonEmptyQueue, syncScanOrder, List.find?, getQueue, e0, e1, e2,
        e3, e4, e5, e6, hcons]
  case arqHigh => simp [syncScanOrder] at hmem
  case arqLow => simp [syncScanOrder] at hmem

/-- C1: search_for_jobs_unlocked returns the head of the first non-empty
queue in the fixed static order render-high, thumbnail-high, render-low,
links, load, thumbnail-low, fonts, print; it returns none exactly when all
eight synchronous queues are empty; and as long as a higher-ranked queue is
non-empty, no lower-ranked queue is drained (its contents are untouched by
the dequeue). -/
theorem C1_dequeue_static_priority_order (s : EvState) :
    ((searchForJobsUnlocked s).1 =
        (firstNonEmptyQueue s).bind (fun q => (getQueue s q).head?))
    ∧ ((searchForJobsUnlocked s).1 = none ↔ noJobsAvailableUnlocked s = true)
    ∧ (∀ q r, q ∈ syncScanOrder → r ∈ syncScanOrder →
        queueRank q < queueRank r → getQueue s q ≠ [] →
        getQueue (searchForJobsUnlocked s).2 r = getQueue s r) := by
  rcases search_spec s with ⟨hempty, hsearch⟩ |
    ⟨q0, j, rest, hmem, hq0, hbefore, hsearch⟩
  · have hall : ∀ q ∈ syncScanOrder, getQueue s q = [] := (noJobs_iff s).mp hempty
    refine ⟨?_, ?_, ?_⟩
    · rw [hsearch]
      have hnone : firstNonEmptyQueue s = none := by
        apply List.find?_eq_none.mpr
        intro q hqmem
        simp [hall q hqmem]
      simp [hnone]
    · simp [hsearch, hempty]
    · intro q r hqm hrm hlt hne
      exact absurd (hall q hqm) hne
  · have hno : noJobsAvailableUnlocked s ≠ true := by
      intro h
      have := (noJobs_iff s).mp h q0 hmem
      rw [hq0] at this
      exact absurd this (by simp)
    refine ⟨?_, ?_, ?_⟩
    · rw [hsearch, firstNonEmpty_eq s q0 hmem (by simp [hq0]) hbefore]
      simp [hq0]
    · rw [hsearch]
      constructor
      · intro h
        simp at h
      · intro h
        exact absurd h hno
    · intro q r hqm hrm hlt hne
      rw [hsearch]
      have hq0le : queueRank q0 ≤ queueRank q := by
        by_contra hlt2
        push_neg at hlt2
        exact hne (hbefore q hqm hlt2)
      have hrne : r ≠ q0 := by
        intro h
        rw [h] at hlt
        omega
      simp [getQueue_setQueue, hrne]

/-- Witness for C1 at a concrete state: with thumbnail-high and print
non-empty, the dequeue leaves the print queue untouched. -/
theorem C1_dequeue_static_priority_order_witness :
    getQueue (searchForJobsUnlocked
      { initState with thumbnailQueueHigh := [jobThumbSync]
                     , printQueue := [jobPrintSync] }).2 .printQ =
    getQueue { initState with thumbnailQueueHigh := [jobThumbSync]
                            , printQueue := [jobPrintSync] } .printQ :=
  (C1_dequeue_static_priority_order
      { initState with thumbnailQueueHigh := [jobThumbSync]
                     , printQueue := [jobPrintSync] }).2.2
    .tqHigh .printQ (by decide) (by decide) (by decide) (by decide)

lemma search_of_noJobs (s : EvState) (h : noJobsAvailableUnlocked s = true) :
    searchForJobsUnlocked s = (none, s) := by
  rcases search_spec s with ⟨_, hs⟩ | ⟨q0, j, rest, hmem, hq0, _, _⟩
  · exact hs
  · have hq := (noJobs_iff s).mp h q0 hmem
    rw [hq0] at hq
    simp at hq

/-- C3 counterexample: starting from all queues empty, one spurious wakeup
(the state on wake is still all-empty) makes the code's loop iteration
complete after a single wait with a nil pop, whereas the while-loop
behaviour described by the claim would keep waiting. -/
theorem C3_counterexample :
    evRenderThreadIter initState [initState] ≠
        specWorkerIter initState [initState]
    ∧ evRenderThreadIter initState [initState] = some (none, initState, 1)
    ∧ specWorkerIter initState [initState] = none :=
  ⟨by decide, by decide, by decide⟩

/-- C3 (amended): the worker's loop body checks emptiness ONCE (an `if`, not
a `while`): when some queue is non-empty it pops without waiting; when all
eight queues are empty it waits a single time on the condition and then
unconditionally proceeds to search_for_jobs_unlocked, so that after a
spurious wakeup with all queues still empty the iteration performs exactly
one wait and completes with no job (the pop returns none and the state is
unchanged); re-checking emptiness happens only via the next iteration of the
outer infinite loop. -/
theorem C3_worker_single_emptiness_check (s w : EvState) (ws : List EvState) :
    (noJobsAvailableUnlocked s = false →
      evRenderThreadIter s ws =
        some ((searchForJobsUnlocked s).1, (searchForJobsUnlocked s).2, 0))
    ∧ (noJobsAvailableUnlocked s = true → evRenderThreadIter s [] = none)
    ∧ (noJobsAvailableUnlocked s = true →
        evRenderThreadIter s (w :: ws) =
          some ((searchForJobsUnlocked w).1, (searchForJobsUnlocked w).2, 1))
    ∧ (noJobsAvailableUnlocked s = true → noJobsAvailableUnlocked w = true →
        evRenderThreadIter s (w :: ws) = some (none, w, 1)) := by
  refine ⟨?_, ?_, ?_, ?_⟩
  · intro h
    simp [evRenderThreadIter, h]
  · intro h
    simp [evRenderThreadIter, h]
  · intro h
    simp [evRenderThreadIter, h]
  · intro h hw
    simp [evRenderThreadIter, h, search_of_noJobs w hw]

/-- Witness for C3 (amended) at a concrete input: all queues empty, one
spurious wakeup, iteration completes with one wait and no job. -/
theorem C3_worker_single_emptiness_check_witness :
    evRenderThreadIter initState [initState] = some (none, initState, 1) :=
  (C3_worker_single_emptiness_check initState initState []).2.2.2
    (by decide) (by decide)

lemma popJobs_drain (q : QueueId) (hmem : q ∈ syncScanOrder) :
    ∀ xs s, getQueue s q = xs →
      (∀ r ∈ syncScanOrder, r ≠ q → getQueue s r = []) →
      (popJobs xs.length s).1 = xs := by
  intro xs
  induction xs with
  | nil =>
    intro s h1 h2
    simp [popJobs]
  | cons a t ih =>
    intro s h1 h2
    rcases search_spec s with ⟨hempty, hsearch⟩ |
      ⟨q0, j, rest, hm0, hq0, hbefore, hsearch⟩
    · exfalso
      have hq := (noJobs_iff s).mp hempty q hmem
      rw [h1] at hq
      simp at hq
    · have hq0q : q0 = q := by
        by_contra hne
        have hq := h2 q0 hm0 hne
        rw [hq0] at hq
        simp at hq
      subst hq0q
      rw [h1] at hq0
      injection hq0 with hj hrest
      subst hj
      subst hrest
      have hstep : (popJobs t.length (setQueue s q0 t)).1 = t := by
        refine ih (setQueue s q0 t) ?_ ?_
        · simp [getQueue_setQueue]
        · intro r hr hne
          rw [getQueue_setQueue]
          simp only [if_neg hne]
          exact h2 r hr hne
      simp [popJobs, hsearch, hstep]

/-- C5: enqueue appends at the tail of the selected queue (leaving all other
queues unchanged); each dequeue either leaves a given queue untouched or
pops exactly its head; and a queue holding jobs xs, when it is the only
non-empty synchronous queue, is drained by successive worker dequeues in
exactly the order xs — strict FIFO within one (kind, priority) queue. -/
theorem C5_fifo_within_queue :
    (∀ s q j, getQueue (addJobToQueueLocked s q j) q = getQueue s q ++ [j]
      ∧ ∀ r, r ≠ q → getQueue (addJobToQueueLocked s q j) r = getQueue s r)
    ∧ (∀ s q, getQueue (searchForJobsUnlocked s).2 q = getQueue s q
        ∨ ((searchForJobsUnlocked s).1 = (getQueue s q).head?
            ∧ getQueue (searchForJobsUnlocked s).2 q = (getQueue s q).tail))
    ∧ (∀ q xs s, q ∈ syncScanOrder → getQueue s q = xs →
        (∀ r ∈ syncScanOrder, r ≠ q → getQueue s r = []) →
        (popJobs xs.length s).1 = xs) := by
  refine ⟨?_, ?_, ?_⟩
  · intro s q j
    constructor
    · simp [addJobToQueueLocked, getQueue_setQueue]
    · intro r hr
      simp [addJobToQueueLocked, getQueue_setQueue, hr]
  · intro s q
    rcases search_spec s with ⟨_, hsearch⟩ |
      ⟨q0, j, rest, hm0, hq0, hbefore, hsearch⟩
    · left
      rw [hsearch]
    · by_cases hqq : q = q0
      · right
        subst hqq
        rw [hsearch, hq0]
        simp [getQueue_setQueue]
      · left
        rw [hsearch]
        simp [getQueue_setQueue, hqq]
  · exact fun q xs s hmem h1 h2 => popJobs_drain q hmem xs s h1 h2

/-- Witness for C5: three load jobs queued in order 30, 31, 32 are drained
in exactly that order. -/
theorem C5_fifo_within_queue_witness :
    (popJobs 3
      { initState with loadQueue :=
          [{ id := 30, kind := .Load, async := false },
           { id := 31, kind := .Load, async := false },
           { id := 32, kind := .Load, async := false }] }).1 =
      [{ id := 30, kind := .Load, async := false },
       { id := 31, kind := .Load, async := false },
       { id := 32, kind := .Load, async := false }] :=
  C5_fifo_within_queue.2.2 .loadQ
    [{ id := 30, kind := .Load, async := false },
     { id := 31, kind := .Load, async := false },
     { id := 32, kind := .Load, async := false }]
    { initState with loadQueue :=
        [{ id := 30, kind := .Load, async := false },
         { id := 31, kind := .Load, async := false },
         { id := 32, kind := .Load, async := false }] }
    (by decide) (by decide) (by decide)

lemma count_erase_succ {l : List EvJob} {j : EvJob} (h : j ∈ l) :
    (l.erase j).count j + 1 = l.count j := by
  have h1 := List.count_erase_self j l
  have h2 : 0 < l.count j := List.count_pos_iff.mpr h
  omega

/-- Full characterization of ev_job_queue_remove_job on the kinds that do
not assert: the reported boolean is membership in a candidate queue, a
false report leaves the state unchanged, a true report deletes exactly one
occurrence. -/
lemma removeJob_spec (j : EvJob) (s : EvState)
    (hok : j.async = true → j.kind = .Render) :
    ∃ b s2, evJobQueueRemoveJob j s = some (b, s2)
      ∧ (b = true ↔ ∃ q ∈ candidateQueues j, j ∈ getQueue s q)
      ∧ (b = false → s2 = s)
      ∧ (b = true → totalCount j s2 + 1 = totalCount j s) := by
  by_cases ha : j.async = true
  · have hk := hok ha
    by_cases hhi : j ∈ s.asyncRenderQueueHigh
    · refine ⟨true, { s with asyncRenderQueueHigh := s.asyncRenderQueueHigh.erase j },
        ?_, ?_, ?_, ?_⟩
      · simp [evJobQueueRemoveJob, removeJobFromAsyncQueue,
          removeJobFromQueueLocked, ha, hk, hhi]
      · simp only [candidateQueues, ha, hk]
        simp [getQueue]
        exact Or.inl hhi
      · intro h
        simp at h
      · intro _
        simp only [totalCount]
        have := count_erase_succ hhi
        omega
    · by_cases hlo : j ∈ s.asyncRenderQueueLow
      · refine ⟨true, { s with asyncRenderQueueLow := s.asyncRenderQueueLow.erase j },
          ?_, ?_, ?_, ?_⟩
        · simp [evJobQueueRemoveJob, removeJobFromAsyncQueue,
            removeJobFromQueueLocked, ha, hk, hhi, hlo]
        · simp only [candidateQueues, ha, hk]
          simp [getQueue]
          exact Or.inr hlo
        · intro h
          simp at h
        · intro _
          simp only [totalCount]
          have := count_erase_succ hlo
          omega
      · refine ⟨false, s, ?_, ?_, ?_, ?_⟩
        · simp [evJobQueueRemoveJob, removeJobFromAsyncQueue,
            removeJobFromQueueLocked, ha, hk, hhi, hlo]
        · simp only [candidateQueues, ha, hk]
          simp [getQueue, hhi, hlo]
        · intro _
          rfl
        · intro h
          simp at h
  · have ha2 : j.async = false := by simpa using ha
    cases hk : j.kind with
    | Render =>
      by_cases hhi : j ∈ s.renderQueueHigh
      · refine ⟨true, { s with renderQueueHigh := s.renderQueueHigh.erase j },
          ?_, ?_, ?_, ?_⟩
        · simp [evJobQueueRemoveJob, removeJobFromQueueLocked, ha2, hk, hhi]
        · simp only [candidateQueues, ha2, hk]
          simp [getQueue]
          exact Or.inl hhi
        · intro h
          simp at h
        · intro _
          simp only [totalCount]
          have := count_erase_succ hhi
          omega
      · by_cases hlo : j ∈ s.renderQueueLow
        · refine ⟨true, { s with renderQueueLow := s.renderQueueLow.erase j },
            ?_, ?_, ?_, ?_⟩
          · simp [evJobQueueRemoveJob, removeJobFromQueueLocked, ha2, hk, hhi, hlo]
          · simp only [candidateQueues, ha2, hk]
            simp [getQueue]
            exact Or.inr hlo
          · intro h
            simp at h
          · intro _
            simp only [totalCount]
            have := count_erase_succ hlo
            omega
        · refine ⟨false, s, ?_, ?_, ?_, ?_⟩
          · simp [evJobQueueRemoveJob, removeJobFromQueueLocked, ha2, hk, hhi, hlo]
          · simp only [candidateQueues, ha2, hk]
            simp [getQueue, hhi, hlo]
          · intro _
            rfl
          · intro h
            simp at h
    | Thumbnail =>
      by_cases hhi : j ∈ s.thumbnailQueueHigh
      · refine ⟨true, { s with thumbnailQueueHigh := s.thumbnailQueueHigh.erase j },
          ?_, ?_, ?_, ?_⟩
        · simp [evJobQueueRemoveJob, removeJobFromQueueLocked, ha2, hk, hhi]
        · simp only [candidateQueues, ha2, hk]
          simp [getQueue]
          exact Or.inl hhi
        · intro h
          simp at h
        · intro _
          simp only [totalCount]
          have := count_erase_succ hhi
          omega
      · by_cases hlo : j ∈ s.thumbnailQueueLow
        · refine ⟨true, { s with thumbnailQueueLow := s.thumbnailQueueLow.erase j },
            ?_, ?_, ?_, ?_⟩
          · simp [evJobQueueRemoveJob, removeJobFromQueueLocked, ha2, hk, hhi, hlo]
          · simp only [candidateQueues, ha2, hk]
            simp [getQueue]
            exact Or.inr hlo
          · intro h
            simp at h
          · intro _
            simp only [totalCount]
            have := count_erase_succ hlo
            omega
        · refine ⟨false, s, ?_, ?_, ?_, ?_⟩
          · simp [evJobQueueRemoveJob, removeJobFromQueueLocked, ha2, hk, hhi, hlo]
          · simp only [candidateQueues, ha2, hk]
            simp [getQueue, hhi, hlo]
          · intro _
            rfl
          · intro h
            simp at h
    | Links =>
      by_cases hmemq : j ∈ s.linksQueue
      · refine ⟨true, { s with linksQueue := s.linksQueue.erase j }, ?_, ?_, ?_, ?_⟩
        · simp [evJobQueueRemoveJob, removeJobFromQueueLocked, ha2, hk, hmemq]
        · simp only [candidateQueues, ha2, hk]
          simp [getQueue]
          exact hmemq
        · intro h
          simp at h
        · intro _
          simp only [totalCount]
          have := count_erase_succ hmemq
          omega
      · refine ⟨false, s, ?_, ?_, ?_, ?_⟩
        · simp [evJobQueueRemoveJob, removeJobFromQueueLocked, ha2, hk, hmemq]
        · simp only [candidateQueues, ha2, hk]
          simp [getQueue, hmemq]
        · intro _
          rfl
        · intro h
          simp at h
    | Load =>
      by_cases hmemq : j ∈ s.loadQueue
      · refine ⟨true, { s with loadQueue := s.loadQueue.erase j }, ?_, ?_, ?_, ?_⟩
        · simp [evJobQueueRemoveJob, removeJobFromQueueLocked, ha2, hk, hmemq]
        · simp only [candidateQueues, ha2, hk]
          simp [getQueue]
          exact hmemq
        · intro h
          simp at h
        · intro _
          simp only [totalCount]
          have := count_erase_succ hmemq
          omega
      · refine ⟨false, s, ?_, ?_, ?_, ?_⟩
        · simp [evJobQueueRemoveJob, removeJobFromQueueLocked, ha2, hk, hmemq]
        · simp only [candidateQueues, ha2, hk]
          simp [getQueue, hmemq]
        · intro _
          rfl
        · intro h
          simp at h
    | Fonts =>
      by_cases hmemq : j ∈ s.fontsQueue
      · refine ⟨true, { s with fontsQueue := s.fontsQueue.erase j }, ?_, ?_, ?_, ?_⟩
        · simp [evJobQueueRemoveJob, removeJobFromQueueLocked, ha2, hk, hmemq]
        · simp only [candidateQueues, ha2, hk]
          simp [getQueue]
          exact hmemq
        · intro h
          simp at h
        · intro _
          simp only [totalCount]
          have := count_erase_succ hmemq
          omega
      · refine ⟨false, s, ?_, ?_, ?_, ?_⟩
        · simp [evJobQueueRemoveJob, removeJobFromQueueLocked, ha2, hk, hmemq]
        · simp only [candidateQueues, ha2, hk]
          simp [getQueue, hmemq]
        · intro _
          rfl
        · intro h
          simp at h
    | Print =>
      by_cases hmemq : j ∈ s.printQueue
      · refine ⟨true, { s with printQueue := s.printQueue.erase j }, ?_, ?_, ?_, ?_⟩
        · simp [evJobQueueRemoveJob, removeJobFromQueueLocked, ha2, hk, hmemq]
        · simp only [candidateQueues, ha2, hk]
          simp [getQueue]
          exact hmemq
        · intro h
          simp at h
        · intro _
          simp only [totalCount]
          have := count_erase_succ hmemq
          omega
      · refine ⟨false, s, ?_, ?_, ?_, ?_⟩
        · simp [evJobQueueRemoveJob, removeJobFromQueueLocked, ha2, hk, hmemq]
        · simp only [candidateQueues, ha2, hk]
          simp [getQueue, hmemq]
        · intro _
          rfl
        · intro h
          simp at h

/-- C6: for any job whose kind and mode the remove operation admits (async
non-render jobs assert instead, see C8), ev_job_queue_remove_job returns
normally with a boolean result; the result is true exactly when the job is
present in one of the queues its kind and mode can map to; when it is false
(in particular for a job already popped for execution, which is in no
queue) every queue is left unchanged; and when it is true exactly one
occurrence of the job is deleted. -/
theorem C6_remove_reports_found (j : EvJob) (s : EvState)
    (hok : j.async = true → j.kind = .Render) :
    ∃ b s2, evJobQueueRemoveJob j s = some (b, s2)
      ∧ (b = true ↔ ∃ q ∈ candidateQueues j, j ∈ getQueue s q)
      ∧ (b = false → s2 = s)
      ∧ (b = true → totalCount j s2 + 1 = totalCount j s) :=
  removeJob_spec j s hok

/-- Witness for C6: removing a links job from a state where it is queued
nowhere (it was already popped) reports false and changes nothing. -/
theorem C6_remove_reports_found_witness :
    ∃ b s2, evJobQueueRemoveJob jobLinksSync initState = some (b, s2)
      ∧ (b = true ↔ ∃ q ∈ candidateQueues jobLinksSync,
          jobLinksSync ∈ getQueue initState q)
      ∧ (b = false → s2 = initState)
      ∧ (b = true →
          totalCount jobLinksSync s2 + 1 = totalCount jobLinksSync initState) :=
  C6_remove_reports_found jobLinksSync initState (by decide)

/-- C10: a single remove deletes at most one occurrence: for the kinds with
two candidate queues the high queue is scanned first and, when the job is
found there, short-circuit evaluation skips the low queue entirely (its
contents, including a duplicate of the job, are untouched); within one
queue only the first matching element is deleted; and whenever remove
reports true, exactly one occurrence has been deleted overall. -/
theorem C10_remove_at_most_one_occurrence :
    (∀ j s, j.async = false → j.kind = .Thumbnail → j ∈ s.thumbnailQueueHigh →
      evJobQueueRemoveJob j s =
        some (true, { s with thumbnailQueueHigh := s.thumbnailQueueHigh.erase j }))
    ∧ (∀ j s, j.async = false → j.kind = .Render → j ∈ s.renderQueueHigh →
        evJobQueueRemoveJob j s =
          some (true, { s with renderQueueHigh := s.renderQueueHigh.erase j }))
    ∧ (∀ j s, j.async = true → j.kind = .Render → j ∈ s.asyncRenderQueueHigh →
        evJobQueueRemoveJob j s =
          some (true,
            { s with asyncRenderQueueHigh := s.asyncRenderQueueHigh.erase j }))
    ∧ (∀ l j, removeJobFromQueueLocked (j :: l) j = (true, l))
    ∧ (∀ j s b s2, evJobQueueRemoveJob j s = some (b, s2) → b = true →
        totalCount j s2 + 1 = totalCount j s) := by
  refine ⟨?_, ?_, ?_, ?_, ?_⟩
  · intro j s ha hk hmem
    simp [evJobQueueRemoveJob, removeJobFromQueueLocked, ha, hk, hmem]
  · intro j s ha hk hmem
    simp [evJobQueueRemoveJob, removeJobFromQueueLocked, ha, hk, hmem]
  · intro j s ha hk hmem
    simp [evJobQueueRemoveJob, removeJobFromAsyncQueue, removeJobFromQueueLocked,
      ha, hk, hmem]
  · intro l j
    simp [removeJobFromQueueLocked]
  · intro j s b s2 h hb
    have hok : j.async = true → j.kind = .Render := by
      intro ha
      by_contra hk
      simp [evJobQueueRemoveJob, ha, hk] at h
    obtain ⟨b2, s3, heq, _, _, hcount⟩ := removeJob_spec j s hok
    rw [h] at heq
    have hbs : b = b2 ∧ s2 = s3 := by
      have := Option.some.inj heq
      exact ⟨congrArg Prod.fst this, congrArg Prod.snd this⟩
    rw [hbs.1] at hb
    rw [hbs.2]
    exact hcount hb

/-- Witness for C10: a thumbnail job erroneously present in both thumbnail
queues; remove deletes only the high-queue copy, the low-queue copy stays. -/
theorem C10_remove_at_most_one_occurrence_witness :
    evJobQueueRemoveJob jobThumbSync
      { initState with thumbnailQueueHigh := [jobThumbSync]
                     , thumbnailQueueLow := [jobThumbSync] } =
      some (true, { initState with thumbnailQueueLow := [jobThumbSync] }) :=
  C10_remove_at_most_one_occurrence.1 jobThumbSync
    { initState with thumbnailQueueHigh := [jobThumbSync]
                   , thumbnailQueueLow := [jobThumbSync] }
    (by decide) (by decide) (by decide)

lemma moveJob_not_found (j : EvJob) (oldQ newQ : QueueId) (s : EvState)
    (h : j ∉ getQueue s oldQ) :
    moveJob j oldQ newQ s = (false, s) := by
  simp [moveJob, removeJobFromQueueLocked, h, setQueue_getQueue]

lemma moveJobAsync_not_found (j : EvJob) (oldQ newQ : QueueId) (s : EvState)
    (h : j ∉ getQueue s oldQ) :
    moveJobAsync j oldQ newQ s = (false, s) := by
  simp [moveJobAsync, removeJobFromQueueLocked, h, setQueue_getQueue]

/-- C4 counterexample: updating the priority of a links job — a kind whose
priority is not meaningful — does not return normally with result false as
the claim states: it hits `g_assert_not_reached` (modelled as `none`). -/
theorem C4_counterexample :
    evJobQueueUpdateJob jobLinksSync EvJobPriority.high initState = none
    ∧ ¬ ∃ s2, evJobQueueUpdateJob jobLinksSync EvJobPriority.high initState =
        some (false, s2) := by
  refine ⟨rfl, ?_⟩
  rintro ⟨s2, h⟩
  simp [evJobQueueUpdateJob, jobLinksSync] at h

/-- C4 (amended): ev_job_queue_update_job with a new priority equal to the
job's current one is a no-op reporting false for the kinds that support
priority moves (the job is absent from the opposite-priority source queue,
so the move's remove step fails and nothing changes); but for a kind whose
priority is not meaningful (Load, Links, Fonts, Print) the update is NOT a
false-reporting no-op: it hits a fatal assertion (`g_assert_not_reached`,
modelled as `none`). -/
theorem C4_update_equal_priority_noop (j : EvJob) (p : EvJobPriority)
    (s : EvState) :
    (∀ q, moveSourceQueue j p = some q → j ∉ getQueue s q →
      evJobQueueUpdateJob j p s = some (false, s))
    ∧ (j.async = false →
        (j.kind = .Load ∨ j.kind = .Links ∨ j.kind = .Fonts ∨ j.kind = .Print) →
        evJobQueueUpdateJob j p s = none) := by
  constructor
  · intro q hq hmem
    by_cases ha : j.async = true
    · by_cases hk : j.kind = .Render
      · cases p <;>
          simp only [moveSourceQueue, ha, hk, if_true, if_pos] at hq <;>
          simp only [Option.some.injEq] at hq <;>
          subst hq <;>
          simp [evJobQueueUpdateJob, ha, hk, moveJobAsync_not_found j _ _ s hmem]
      · simp [moveSourceQueue, ha, hk] at hq
    · have ha2 : j.async = false := by simpa using ha
      cases hk : j.kind with
      | Render =>
        cases p <;>
          simp only [moveSourceQueue, ha2, hk, Bool.false_eq_true, if_false,
            Option.some.injEq] at hq <;>
          subst hq <;>
          simp [evJobQueueUpdateJob, ha2, hk, moveJob_not_found j _ _ s hmem]
      | Thumbnail =>
        cases p <;>
          simp only [moveSourceQueue, ha2, hk, Bool.false_eq_true, if_false,
            Option.some.injEq] at hq <;>
          subst hq <;>
          simp [evJobQueueUpdateJob, ha2, hk, moveJob_not_found j _ _ s hmem]
      | Links => simp [moveSourceQueue, ha2, hk] at hq
      | Load => simp [moveSourceQueue, ha2, hk] at hq
      | Fonts => simp [moveSourceQueue, ha2, hk] at hq
      | Print => simp [moveSourceQueue, ha2, hk] at hq
  · intro ha2 hk
    rcases hk with hk | hk | hk | hk <;> simp [evJobQueueUpdateJob, ha2, hk]

/-- Witness for C4 (amended): a thumbnail job currently queued at low
priority, asked to move to low priority again, reports false and nothing
changes. -/
theorem C4_update_equal_priority_noop_witness :
    evJobQueueUpdateJob jobThumbSync EvJobPriority.low
      { initState with thumbnailQueueLow := [jobThumbSync] } =
      some (false, { initState with thumbnailQueueLow := [jobThumbSync] }) :=
  (C4_update_equal_priority_noop jobThumbSync EvJobPriority.low
    { initState with thumbnailQueueLow := [jobThumbSync] }).1
    .tqHigh (by decide) (by decide)

/-- C9 counterexample: a load job that is in no queue (already popped):
ev_job_queue_update_job does not report failure — it hits the
`g_assert_not_reached` branch (modelled as `none`), refuting the claim's
universal "always reports failure". -/
theorem C9_counterexample :
    (∀ q, jobLoadSync ∉ getQueue initState q)
    ∧ evJobQueueUpdateJob jobLoadSync EvJobPriority.high initState = none
    ∧ ¬ ∃ s2, evJobQueueUpdateJob jobLoadSync EvJobPriority.high initState =
        some (false, s2) := by
  refine ⟨?_, rfl, ?_⟩
  · intro q
    cases q <;> simp [getQueue, initState]
  · rintro ⟨s2, h⟩
    simp [evJobQueueUpdateJob, jobLoadSync] at h

/-- C9 (amended): for a job already popped from its queue (present in no
queue), ev_job_queue_update_job reports failure without resurrecting it for
the kinds that route to a move (async Render, sync Render and Thumbnail):
the move's remove step fails, the append step is skipped and the state is
unchanged; for every other kind the update hits a fatal assertion instead
of reporting failure. -/
theorem C9_update_popped_reports_failure (j : EvJob) (p : EvJobPriority)
    (s : EvState) (hpopped : ∀ q, j ∉ getQueue s q) :
    ((j.async = true ∧ j.kind = .Render) ∨
        (j.async = false ∧ (j.kind = .Render ∨ j.kind = .Thumbnail)) →
      evJobQueueUpdateJob j p s = some (false, s))
    ∧ ((j.async = true ∧ j.kind ≠ .Render) ∨
        (j.async = false ∧ j.kind ≠ .Render ∧ j.kind ≠ .Thumbnail) →
      evJobQueueUpdateJob j p s = none) := by
  constructor
  · rintro (⟨ha, hk⟩ | ⟨ha, hk | hk⟩)
    · cases p <;>
        simp [evJobQueueUpdateJob, ha, hk, moveJobAsync_not_found j _ _ s (hpopped _)]
    · cases p <;>
        simp [evJobQueueUpdateJob, ha, hk, moveJob_not_found j _ _ s (hpopped _)]
    · cases p <;>
        simp [evJobQueueUpdateJob, ha, hk, moveJob_not_found j _ _ s (hpopped _)]
  · rintro (⟨ha, hk⟩ | ⟨ha, hk1, hk2⟩)
    · simp [evJobQueueUpdateJob, ha, hk]
    · cases hk : j.kind <;> simp_all [evJobQueueUpdateJob]

/-- Witness for C9 (amended): a popped sync render job; the priority update
reports false and the state is untouched. -/
theorem C9_update_popped_reports_failure_witness :
    evJobQueueUpdateJob jobRenderSync EvJobPriority.high initState =
      some (false, initState) :=
  (C9_update_popped_reports_failure jobRenderSync EvJobPriority.high initState
    (fun q => by cases q <;> simp [getQueue, initState])).1
    (Or.inr ⟨rfl, Or.inl rfl⟩)

/-- C7 counterexample: with the busy flag (`async_rendering`) set and a job
in the async high queue, ev_job_queue_run_next is NOT a no-op: it pops the
job and dispatches it anyway, because the function never consults the busy
flag — the guard lives in its callers. -/
theorem C7_counterexample :
    evJobQueueRunNext
        { initState with
            asyncRenderQueueHigh := [jobRenderAsync], asyncRendering := true } ≠
      some { initState with
              asyncRenderQueueHigh := [jobRenderAsync], asyncRendering := true }
    ∧ evJobQueueRunNext
        { initState with
            asyncRenderQueueHigh := [jobRenderAsync], asyncRendering := true } =
      some { initState with
              asyncRendering := true,
              running := [jobRenderAsync],
              trace := [AsyncEvent.start jobRenderAsync] } :=
  ⟨by decide, by decide⟩

/-- C7 (amended): ev_job_queue_run_next does not check the busy flag at
all: unconditionally it pops the head of the async high FIFO, falling back
to the async low FIFO, stays idle when both are empty, and dispatches an
obtained job through handle_job, which (for an async render job) sets the
busy flag; serialization relies on the callers calling it only when the
busy flag is clear (ev_job_queue_add_job checks `!async_rendering`,
job_finished_cb clears the flag first). -/
theorem C7_run_next_unconditional (s : EvState) :
    (s.asyncRenderQueueHigh = [] → s.asyncRenderQueueLow = [] →
      evJobQueueRunNext s = some s)
    ∧ (∀ j rest, s.asyncRenderQueueHigh = j :: rest →
        evJobQueueRunNext s = handleJob { s with asyncRenderQueueHigh := rest } j)
    ∧ (s.asyncRenderQueueHigh = [] →
        ∀ j rest, s.asyncRenderQueueLow = j :: rest →
          evJobQueueRunNext s = handleJob { s with asyncRenderQueueLow := rest } j)
    ∧ (∀ j, j.async = true → j.kind = .Render →
        handleJob s j = some { s with
          asyncRendering := true,
          running := s.running ++ [j],
          trace := s.trace ++ [AsyncEvent.start j] })
    ∧ (∀ j p q, j.async = true → s.asyncRendering = true → findQueue j p = some q →
        evJobQueueAddJob j p s = some (addJobToAsyncQueue s q j)) := by
  refine ⟨?_, ?_, ?_, ?_, ?_⟩
  · intro h1 h2
    simp [evJobQueueRunNext, h1, h2]
  · intro j rest h1
    simp [evJobQueueRunNext, h1]
  · intro h1 j rest h2
    simp [evJobQueueRunNext, h1, h2]
  · intro j ha hk
    simp [handleJob, ha, hk]
  · intro j p q ha hbusy hq
    simp [evJobQueueAddJob, hq, ha, addJobToAsyncQueue, asyncRendering_setQueue,
      hbusy]

/-- Witness for C7 (amended): a job queued in the async high FIFO is popped
and dispatched by run_next. -/
theorem C7_run_next_unconditional_witness :
    evJobQueueRunNext { initState with asyncRenderQueueHigh := [jobRenderAsync] } =
      handleJob initState jobRenderAsync :=
  (C7_run_next_unconditional
    { initState with asyncRenderQueueHigh := [jobRenderAsync] }).2.1
    jobRenderAsync [] rfl

/-- C8: submitting an async (NonBlocking) job whose kind is not Render to
the scheduler is a fatal assertion, not a recoverable error: find_queue
falls through to `g_assert_not_reached` (modelled as `none`), and add,
update and remove all assert likewise; for an async Render job the
assertion branch is unreachable — find_queue always yields a queue and
handle_job always dispatches. -/
theorem C8_async_non_render_fatal (j : EvJob) (p : EvJobPriority) (s : EvState)
    (ha : j.async = true) :
    (j.kind ≠ .Render →
      findQueue j p = none
        ∧ evJobQueueAddJob j p s = none
        ∧ evJobQueueUpdateJob j p s = none
        ∧ evJobQueueRemoveJob j s = none)
    ∧ (j.kind = .Render → (findQueue j p).isSome ∧ (handleJob s j).isSome) := by
  constructor
  · intro hk
    refine ⟨?_, ?_, ?_, ?_⟩
    · simp [findQueue, ha, hk]
    · simp [evJobQueueAddJob, findQueue, ha, hk]
    · simp [evJobQueueUpdateJob, ha, hk]
    · simp [evJobQueueRemoveJob, ha, hk]
  · intro hk
    constructor
    · cases p <;> simp [findQueue, ha, hk]
    · simp [handleJob, ha, hk]

/-- Witness for C8: an async thumbnail job asserts in find_queue, add,
update and remove. -/
theorem C8_async_non_render_fatal_witness :
    findQueue jobThumbAsync EvJobPriority.high = none
      ∧ evJobQueueAddJob jobThumbAsync EvJobPriority.high initState = none
      ∧ evJobQueueUpdateJob jobThumbAsync EvJobPriority.high initState = none
      ∧ evJobQueueRemoveJob jobThumbAsync initState = none :=
  (C8_async_non_render_fatal jobThumbAsync EvJobPriority.high initState
    (by decide)).1 (by decide)

lemma serial_running_short {tr : List AsyncEvent} {r : List EvJob}
    (h : Serial tr r) : r = [] ∨ ∃ j, r = [j] := by
  cases h with
  | nil => exact Or.inl rfl
  | start j h2 => exact Or.inr ⟨j, rfl⟩
  | fin j h2 => exact Or.inl rfl

lemma snoc_eq_append_cons {α : Type} {tr : List α} {e : α} {a : List α}
    {x : α} {b : List α} (h : tr ++ [e] = a ++ x :: b) :
    (b = [] ∧ tr = a ∧ e = x) ∨ ∃ b2, b = b2 ++ [e] ∧ tr = a ++ x :: b2 := by
  rcases List.eq_nil_or_concat b with rfl | ⟨b2, e2, rfl⟩
  · left
    have h3 := List.append_inj' h rfl
    exact ⟨rfl, h3.1, by simpa using h3.2⟩
  · right
    have h2 : tr ++ [e] = (a ++ x :: b2) ++ [e2] := by
      simpa [List.concat_eq_append] using h
    have h3 := List.append_inj' h2 rfl
    have he : e = e2 := by simpa using h3.2
    exact ⟨b2, by simp [List.concat_eq_append, he], h3.1⟩

lemma serial_after_start {tr : List AsyncEvent} {r : List EvJob}
    (hs : Serial tr r) :
    ∀ a j b, tr = a ++ AsyncEvent.start j :: b →
      (b = [] ∧ r = [j]) ∨ ∃ b2, b = AsyncEvent.finish j :: b2 := by
  induction hs with
  | nil =>
    intro a j b h
    exact absurd h (by simp)
  | start j2 h2 ih =>
    intro a j b heq
    rcases snoc_eq_append_cons heq with ⟨rfl, rfl, hx⟩ | ⟨b2, rfl, htr⟩
    · left
      have hj : j2 = j := by
        injection hx
      exact ⟨rfl, by rw [hj]⟩
    · rcases ih a j b2 htr with ⟨rfl, hr⟩ | ⟨b3, rfl⟩
      · exact absurd hr (by simp)
      · exact Or.inr ⟨b3 ++ [AsyncEvent.start j2], by simp⟩
  | fin j2 h2 ih =>
    intro a j b heq
    rcases snoc_eq_append_cons heq with ⟨rfl, rfl, hx⟩ | ⟨b2, rfl, htr⟩
    · exact absurd hx (by simp)
    · rcases ih a j b2 htr with ⟨rfl, hr⟩ | ⟨b3, rfl⟩
      · right
        have hj : j2 = j := by simpa using hr
        exact ⟨[], by simp [hj]⟩
      · exact Or.inr ⟨b3 ++ [AsyncEvent.finish j2], by simp⟩

lemma serial_between_starts {tr : List AsyncEvent} {r : List EvJob}
    (hs : Serial tr r) :
    ∀ a j1 b j2 c,
      tr = a ++ AsyncEvent.start j1 :: (b ++ AsyncEvent.start j2 :: c) →
      AsyncEvent.finish j1 ∈ b := by
  intro a j1 b j2 c heq
  rcases serial_after_start hs a j1 (b ++ AsyncEvent.start j2 :: c) heq with
    ⟨hnil, _⟩ | ⟨b2, hb⟩
  · exact absurd hnil (by simp)
  · cases b with
    | nil => simp at hb
    | cons x b3 =>
      have hx : x = AsyncEvent.finish j1 := by
        injection hb
      simp [hx]

lemma asyncInv_init : AsyncInv initState := by
  refine ⟨rfl, Serial.nil, ?_, ?_⟩
  · intro j hj
    simp [initState] at hj
  · intro j hj
    simp [initState] at hj

lemma runNext_inv (s : EvState) (hbusy : s.asyncRendering = false)
    (hrun : s.running = []) (htr : Serial s.trace [])
    (hhi : ∀ j ∈ s.asyncRenderQueueHigh, j.async = true ∧ j.kind = EvJobKind.Render)
    (hlo : ∀ j ∈ s.asyncRenderQueueLow, j.async = true ∧ j.kind = EvJobKind.Render) :
    ∃ s2, evJobQueueRunNext s = some s2 ∧ AsyncInv s2 := by
  rcases hq : s.asyncRenderQueueHigh with _ | ⟨j, rest⟩
  · rcases hq2 : s.asyncRenderQueueLow with _ | ⟨j, rest⟩
    · refine ⟨s, by simp [evJobQueueRunNext, hq, hq2], ?_, ?_, hhi, hlo⟩
      · rw [hbusy, hrun]
        rfl
      · rw [hrun]
        exact htr
    · obtain ⟨hja, hjk⟩ := hlo j (by rw [hq2]; exact List.mem_cons_self j rest)
      refine ⟨{ s with
          asyncRenderQueueLow := rest,
          asyncRendering := true,
          running := s.running ++ [j],
          trace := s.trace ++ [AsyncEvent.start j] }, ?_, ?_, ?_, ?_, ?_⟩
      · simp [evJobQueueRunNext, hq, hq2, handleJob, hja, hjk]
      · simp [hrun]
      · simp only [hrun, List.nil_append]
        exact Serial.start j htr
      · intro j2 hj2
        exact hhi j2 hj2
      · intro j2 hj2
        refine hlo j2 ?_
        rw [hq2]
        exact List.mem_cons_of_mem j hj2
  · obtain ⟨hja, hjk⟩ := hhi j (by rw [hq]; exact List.mem_cons_self j rest)
    refine ⟨{ s with
        asyncRenderQueueHigh := rest,
        asyncRendering := true,
        running := s.running ++ [j],
        trace := s.trace ++ [AsyncEvent.start j] }, ?_, ?_, ?_, ?_, ?_⟩
    · simp [evJobQueueRunNext, hq, handleJob, hja, hjk]
    · simp [hrun]
    · simp only [hrun, List.nil_append]
      exact Serial.start j htr
    · intro j2 hj2
      refine hhi j2 ?_
      rw [hq]
      exact List.mem_cons_of_mem j hj2
    · intro j2 hj2
      exact hlo j2 hj2

lemma asyncStep_submit_inv (s : EvState) (i : Nat) (p : EvJobPriority)
    (h : AsyncInv s) : AsyncInv (asyncStep s (AsyncOp.submit i p)) := by
  obtain ⟨hbusy, htr, hhi, hlo⟩ := h
  cases p with
  | high =>
    have haddQ : evJobQueueAddJob (asyncRenderJob i) EvJobPriority.high s =
        (if s.asyncRendering = false
          then evJobQueueRunNext
            { s with asyncRenderQueueHigh :=
                s.asyncRenderQueueHigh ++ [asyncRenderJob i] }
          else some { s with asyncRenderQueueHigh :=
              s.asyncRenderQueueHigh ++ [asyncRenderJob i] }) := by
      simp [evJobQueueAddJob, findQueue, asyncRenderJob, addJobToAsyncQueue,
        getQueue, setQueue]
    have hhi1 : ∀ j2 ∈ s.asyncRenderQueueHigh ++ [asyncRenderJob i],
        j2.async = true ∧ j2.kind = EvJobKind.Render := by
      intro j2 hj2
      rcases List.mem_append.mp hj2 with hmem | hmem
      · exact hhi j2 hmem
      · rw [List.mem_singleton.mp hmem]
        exact ⟨rfl, rfl⟩
    by_cases hb : s.asyncRendering = true
    · have hstep : asyncStep s (AsyncOp.submit i EvJobPriority.high) =
          { s with asyncRenderQueueHigh :=
              s.asyncRenderQueueHigh ++ [asyncRenderJob i] } := by
        simp [asyncStep, haddQ, hb]
      rw [hstep]
      exact ⟨hbusy, htr, hhi1, hlo⟩
    · have hb2 : s.asyncRendering = false := by simpa using hb
      have hrun : s.running = [] := by
        cases hr : s.running with
        | nil => rfl
        | cons a t =>
          rw [hr, hb2] at hbusy
          simp at hbusy
      obtain ⟨s2, heq2, hinv2⟩ := runNext_inv
        { s with asyncRenderQueueHigh :=
            s.asyncRenderQueueHigh ++ [asyncRenderJob i] }
        hb2 hrun (by rw [hrun] at htr; exact htr) hhi1 hlo
      simp only [hb2] at heq2
      have hstep : asyncStep s (AsyncOp.submit i EvJobPriority.high) = s2 := by
        simp [asyncStep, haddQ, hb2, heq2]
      rw [hstep]
      exact hinv2
  | low =>
    have haddQ : evJobQueueAddJob (asyncRenderJob i) EvJobPriority.low s =
        (if s.asyncRendering = false
          then evJobQueueRunNext
            { s with asyncRenderQueueLow :=
                s.asyncRenderQueueLow ++ [asyncRenderJob i] }
          else some { s with asyncRenderQueueLow :=
              s.asyncRenderQueueLow ++ [asyncRenderJob i] }) := by
      simp [evJobQueueAddJob, findQueue, asyncRenderJob, addJobToAsyncQueue,
        getQueue, setQueue]
    have hlo1 : ∀ j2 ∈ s.asyncRenderQueueLow ++ [asyncRenderJob i],
        j2.async = true ∧ j2.kind = EvJobKind.Render := by
      intro j2 hj2
      rcases List.mem_append.mp hj2 with hmem | hmem
      · exact hlo j2 hmem
      · rw [List.mem_singleton.mp hmem]
        exact ⟨rfl, rfl⟩
    by_cases hb : s.asyncRendering = true
    · have hstep : asyncStep s (AsyncOp.submit i EvJobPriority.low) =
          { s with asyncRenderQueueLow :=
              s.asyncRenderQueueLow ++ [asyncRenderJob i] } := by
        simp [asyncStep, haddQ, hb]
      rw [hstep]
      exact ⟨hbusy, htr, hhi, hlo1⟩
    · have hb2 : s.asyncRendering = false := by simpa using hb
      have hrun : s.running = [] := by
        cases hr : s.running with
        | nil => rfl
        | cons a t =>
          rw [hr, hb2] at hbusy
          simp at hbusy
      obtain ⟨s2, heq2, hinv2⟩ := runNext_inv
        { s with asyncRenderQueueLow :=
            s.asyncRenderQueueLow ++ [asyncRenderJob i] }
        hb2 hrun (by rw [hrun] at htr; exact htr) hhi hlo1
      simp only [hb2] at heq2
      have hstep : asyncStep s (AsyncOp.submit i EvJobPriority.low) = s2 := by
        simp [asyncStep, haddQ, hb2, heq2]
      rw [hstep]
      exact hinv2

lemma asyncStep_complete_inv (s : EvState) (i : Nat) (h : AsyncInv s) :
    AsyncInv (asyncStep s (AsyncOp.complete i)) := by
  obtain ⟨hbusy, htr, hhi, hlo⟩ := h
  by_cases hmem : asyncRenderJob i ∈ s.running
  · rcases serial_running_short htr with hnil | ⟨j2, hj2⟩
    · rw [hnil] at hmem
      simp at hmem
    · have hji : j2 = asyncRenderJob i := by
        rw [hj2] at hmem
        have h9 : asyncRenderJob i = j2 := by simpa using hmem
        exact h9.symm
      have hrunning : s.running = [asyncRenderJob i] := by
        rw [hj2, hji]
      have herase : s.running.erase (asyncRenderJob i) = [] := by
        rw [hrunning]
        simp
      have htr2 : Serial (s.trace ++ [AsyncEvent.finish (asyncRenderJob i)]) [] :=
        Serial.fin (asyncRenderJob i) (hrunning ▸ htr)
      obtain ⟨s2, heq2, hinv2⟩ := runNext_inv
        { s with
            asyncRendering := false,
            running := [],
            trace := s.trace ++ [AsyncEvent.finish (asyncRenderJob i)] }
        rfl rfl htr2 hhi hlo
      have hstep : asyncStep s (AsyncOp.complete i) = s2 := by
        simp [asyncStep, hmem, jobFinishedCb, herase, heq2]
      rw [hstep]
      exact hinv2
  · have hstep : asyncStep s (AsyncOp.complete i) = s := by
      simp [asyncStep, hmem]
    rw [hstep]
    exact ⟨hbusy, htr, hhi, hlo⟩

lemma asyncFold_inv (ops : List AsyncOp) :
    ∀ s, AsyncInv s → AsyncInv (List.foldl asyncStep s ops) := by
  induction ops with
  | nil =>
    intro s h
    exact h
  | cons op rest ih =>
    intro s h
    refine ih (asyncStep s op) ?_
    cases op with
    | submit i p => exact asyncStep_submit_inv s i p h
    | complete i => exact asyncStep_complete_inv s i h

lemma asyncRun_inv (ops : List AsyncOp) : AsyncInv (asyncRun ops) :=
  asyncFold_inv ops initState asyncInv_init

/-- C2: async serialization.  (1) While the busy flag is set, a submit of an
async job only enqueues: the add returns normally having appended the job
to the chosen FIFO, the busy flag stays set, and nothing is dispatched (the
ghost in-flight list and trace are unchanged).  (2) In every state reachable
by submits and completions, at most one async job is in flight.  (3) In the
trace of any such reachable state, between any two start events the
completion callback of the first job has fired: two back-to-back
NonBlocking submissions never overlap. -/
theorem C2_async_serialized_one_at_a_time :
    (∀ s j p q, s.asyncRendering = true → j.async = true →
      findQueue j p = some q →
      ∃ s2, evJobQueueAddJob j p s = some s2
        ∧ s2 = addJobToAsyncQueue s q j
        ∧ s2.running = s.running ∧ s2.trace = s.trace
        ∧ s2.asyncRendering = true)
    ∧ (∀ ops, (asyncRun ops).running.length ≤ 1)
    ∧ (∀ ops a j1 b j2 c,
        (asyncRun ops).trace =
          a ++ AsyncEvent.start j1 :: (b ++ AsyncEvent.start j2 :: c) →
        AsyncEvent.finish j1 ∈ b) := by
  refine ⟨?_, ?_, ?_⟩
  · intro s j p q hb hja hq
    refine ⟨addJobToAsyncQueue s q j, ?_, rfl, ?_, ?_, ?_⟩
    · simp [evJobQueueAddJob, hq, hja, addJobToAsyncQueue,
        asyncRendering_setQueue, hb]
    · exact running_setQueue s q _
    · exact trace_setQueue s q _
    · rw [addJobToAsyncQueue, asyncRendering_setQueue]
      exact hb
  · intro ops
    obtain ⟨_, htr, _, _⟩ := asyncRun_inv ops
    rcases serial_running_short htr with hnil | ⟨j, hj⟩
    · simp [hnil]
    · simp [hj]
  · intro ops a j1 b j2 c heq
    obtain ⟨_, htr, _, _⟩ := asyncRun_inv ops
    exact serial_between_starts htr a j1 b j2 c heq

/-- Witness for C2 at a concrete run: submit job 1, complete it, submit job
2; in the resulting trace the finish of job 1 separates the two starts. -/
theorem C2_async_serialized_one_at_a_time_witness :
    AsyncEvent.finish (asyncRenderJob 1) ∈ [AsyncEvent.finish (asyncRenderJob 1)] :=
  C2_async_serialized_one_at_a_time.2.2
    [AsyncOp.submit 1 EvJobPriority.high, AsyncOp.complete 1,
      AsyncOp.submit 2 EvJobPriority.high]
    [] (asyncRenderJob 1) [AsyncEvent.finish (asyncRenderJob 1)]
    (asyncRenderJob 2) [] (by decide)
